import Mathlib

/-!
Shallow embedding of the playback-control kernel of the wrkmon player:
the `PlayQueue` cursor/shuffle/repeat state machine (`wrkmon/core/queue.py`)
and the retry-with-backoff primitive (`wrkmon/utils/retry.py`).

Modelling conventions:
* Python `int` is `Int` (the cursor may be `-1`); indices stored in the
  shuffle order are `Nat` (they are only ever produced from `range(n)` and
  renumbering that keeps them non-negative).
* Python `float` timestamps (`added_at`) are modelled as `Int`; no claim
  computes with them, they are only stored and copied.
* A Python dict used as a persisted record is a structure of `Option` fields;
  a `KeyError` (missing required key) is `none` from the constructor.
* `random.shuffle(list(range(n)))` is modelled by an explicit parameter
  `r : List Nat` supplied by the caller; the theorems that depend on the
  RNG assume `r` is a permutation of `List.range n`, exactly what
  `random.shuffle` guarantees.
* Mutating methods become functions `PlayQueue → ... → result × PlayQueue`.
* List accesses that could raise `IndexError` in Python are modelled with
  `l[i]?`; under the queue's documented invariants they are always `some`.
-/

/-- `QueueItem` from `wrkmon/core/queue.py`. -/
structure QueueItem where
  video_id : String
  title : String
  channel : String
  duration : Int
  added_at : Int
  playback_position : Int
deriving Repr, DecidableEq

/-- A persisted-snapshot record (a Python dict): each field may be absent. -/
structure QueueItemRecord where
  video_id : Option String
  title : Option String
  channel : Option String
  duration : Option Int
  added_at : Option Int
  playback_position : Option Int
deriving Repr, DecidableEq

/-- `QueueItem.from_dict`: `data["video_id"]`, `data["title"]`, `data["channel"]`,
`data["duration"]` raise `KeyError` when absent (modelled as `none`);
`data.get("added_at", time.time())` and `data.get("playback_position", 0)`
supply defaults. `now` models `time.time()`. -/
def QueueItem.from_dict (data : QueueItemRecord) (now : Int) : Option QueueItem :=
  match data.video_id, data.title, data.channel, data.duration with
  | some v, some t, some c, some d =>
      some { video_id := v, title := t, channel := c, duration := d,
             added_at := data.added_at.getD now,
             playback_position := data.playback_position.getD 0 }
  | _, _, _, _ => none

/-- `QueueItem.to_dict`: every field is written out. -/
def QueueItem.to_dict (item : QueueItem) : QueueItemRecord :=
  { video_id := some item.video_id, title := some item.title,
    channel := some item.channel, duration := some item.duration,
    added_at := some item.added_at,
    playback_position := some item.playback_position }

/-- `PlayQueue` from `wrkmon/core/queue.py` (`_shuffle_order` is spelled
`shuffle_order`). -/
structure PlayQueue where
  items : List QueueItem
  current_index : Int
  shuffle_mode : Bool
  repeat_mode : String
  shuffle_order : List Nat
deriving Repr, DecidableEq

/-- `PlayQueue.current`: bounds-checks the cursor, then reads through the
shuffle projection when `shuffle_mode` and the projection is non-empty. -/
def PlayQueue.current (q : PlayQueue) : Option QueueItem :=
  if 0 ≤ q.current_index ∧ q.current_index < (q.items.length : Int) then
    if q.shuffle_mode ∧ q.shuffle_order ≠ [] then
      (q.shuffle_order[q.current_index.toNat]?).bind fun actual_index =>
        q.items[actual_index]?
    else
      q.items[q.current_index.toNat]?
  else
    none

/-- `PlayQueue.add`: append to the canonical order; when shuffling, append
the new canonical index to the projection. Returns the position. -/
def PlayQueue.add (q : PlayQueue) (item : QueueItem) : Nat × PlayQueue :=
  let items' := q.items ++ [item]
  let order' := if q.shuffle_mode then q.shuffle_order ++ [items'.length - 1]
                else q.shuffle_order
  (items'.length - 1, { q with items := items', shuffle_order := order' })

/-- `PlayQueue.remove`: out-of-range index returns `none` and changes nothing.
In range: pop the item, strip/renumber the projection when shuffling, and
adjust the cursor by comparing the canonical removal index with it. -/
def PlayQueue.remove (q : PlayQueue) (index : Int) : Option QueueItem × PlayQueue :=
  if 0 ≤ index ∧ index < (q.items.length : Int) then
    let item := q.items[index.toNat]?
    let items' := q.items.eraseIdx index.toNat
    let order' :=
      if q.shuffle_mode then
        (q.shuffle_order.filter (fun (i : Nat) => (i : Int) != index)).map
          (fun (i : Nat) => if index < (i : Int) then i - 1 else i)
      else q.shuffle_order
    let ci :=
      if index < q.current_index then q.current_index - 1
      else if index = q.current_index then
        (if (items'.length : Int) ≤ q.current_index then (items'.length : Int) - 1
         else q.current_index)
      else q.current_index
    (item, { q with items := items', shuffle_order := order', current_index := ci })
  else
    (none, q)

/-- `PlayQueue.clear`. -/
def PlayQueue.clear (q : PlayQueue) : PlayQueue :=
  { q with items := [], shuffle_order := [], current_index := -1 }

/-- `PlayQueue.next`. -/
def PlayQueue.next (q : PlayQueue) : Option QueueItem × PlayQueue :=
  if q.items = [] then (none, q)
  else if q.repeat_mode = "one" then (q.current, q)
  else if q.shuffle_mode then
    if q.current_index < (q.shuffle_order.length : Int) - 1 then
      let q' := { q with current_index := q.current_index + 1 }
      (q'.current, q')
    else if q.repeat_mode = "all" then
      let q' := { q with current_index := 0 }
      (q'.current, q')
    else (none, q)
  else
    if q.current_index < (q.items.length : Int) - 1 then
      let q' := { q with current_index := q.current_index + 1 }
      (q'.current, q')
    else if q.repeat_mode = "all" then
      let q' := { q with current_index := 0 }
      (q'.current, q')
    else (none, q)

/-- `PlayQueue.previous`. -/
def PlayQueue.previous (q : PlayQueue) : Option QueueItem × PlayQueue :=
  if q.items = [] then (none, q)
  else if q.repeat_mode = "one" then (q.current, q)
  else if 0 < q.current_index then
    let q' := { q with current_index := q.current_index - 1 }
    (q'.current, q')
  else if q.repeat_mode = "all" then
    let q' := { q with current_index := (q.items.length : Int) - 1 }
    (q'.current, q')
  else (none, q)

/-- `PlayQueue.jump_to`. -/
def PlayQueue.jump_to (q : PlayQueue) (index : Int) : Option QueueItem × PlayQueue :=
  if 0 ≤ index ∧ index < (q.items.length : Int) then
    let q' := { q with current_index := index }
    (q'.current, q')
  else (none, q)

/-- `PlayQueue._create_shuffle_order`: `r` models the result of
`random.shuffle(list(range(len(items))))`. If the cursor is non-negative and
its value occurs in the order, relocate it to the front (Python
`list.remove` drops the first occurrence, `insert(0, x)` is cons) and set
the cursor to 0. -/
def PlayQueue.create_shuffle_order (q : PlayQueue) (r : List Nat) : PlayQueue :=
  if 0 ≤ q.current_index then
    let current_actual := q.current_index.toNat
    if current_actual ∈ r then
      { q with shuffle_order := current_actual :: r.erase current_actual,
               current_index := 0 }
    else { q with shuffle_order := r }
  else { q with shuffle_order := r }

/-- `PlayQueue.shuffle`. -/
def PlayQueue.shuffle (q : PlayQueue) (r : List Nat) : PlayQueue :=
  PlayQueue.create_shuffle_order { q with shuffle_mode := true } r

/-- `PlayQueue.unshuffle`: resolve the cursor through the projection before
discarding it. -/
def PlayQueue.unshuffle (q : PlayQueue) : PlayQueue :=
  let ci :=
    if q.shuffle_order ≠ [] ∧ 0 ≤ q.current_index ∧
        q.current_index < (q.shuffle_order.length : Int) then
      match q.shuffle_order[q.current_index.toNat]? with
      | some a => (a : Int)
      | none => q.current_index
    else q.current_index
  { q with shuffle_mode := false, current_index := ci, shuffle_order := [] }

/-- `PlayQueue.toggle_shuffle`: returns the new state flag. -/
def PlayQueue.toggle_shuffle (q : PlayQueue) (r : List Nat) : Bool × PlayQueue :=
  if q.shuffle_mode then
    let q' := q.unshuffle
    (q'.shuffle_mode, q')
  else
    let q' := q.shuffle r
    (q'.shuffle_mode, q')

/-- `PlayQueue.move`: bounds-checked; repositions one canonical element,
tracks the cursor, and regenerates the shuffle order when shuffling. -/
def PlayQueue.move (q : PlayQueue) (from_index to_index : Int) (r : List Nat) :
    Bool × PlayQueue :=
  if 0 ≤ from_index ∧ from_index < (q.items.length : Int) ∧
      0 ≤ to_index ∧ to_index < (q.items.length : Int) then
    match q.items[from_index.toNat]? with
    | none => (false, q)
    | some item =>
      let items' := (q.items.eraseIdx from_index.toNat).insertIdx to_index.toNat item
      let ci :=
        if q.current_index = from_index then to_index
        else if from_index < q.current_index ∧ q.current_index ≤ to_index then
          q.current_index - 1
        else if to_index ≤ q.current_index ∧ q.current_index < from_index then
          q.current_index + 1
        else q.current_index
      let q' := { q with items := items', current_index := ci }
      if q.shuffle_mode then (true, q'.create_shuffle_order r) else (true, q')
  else (false, q)

/-- `PlayQueue.to_dict_list`. -/
def PlayQueue.to_dict_list (q : PlayQueue) : List QueueItemRecord :=
  q.items.map QueueItem.to_dict

/-- The loop body of `load_from_dicts`: build items from records,
propagating a `KeyError` from `QueueItem.from_dict` as `none`. -/
def loadItems (records : List QueueItemRecord) (now : Int) : Option (List QueueItem) :=
  match records with
  | [] => some []
  | d :: rest =>
    match QueueItem.from_dict d now with
    | none => none
    | some it => (loadItems rest now).map (it :: ·)

/-- `PlayQueue.load_from_dicts`: clear, rebuild the items, clamp the supplied
cursor into `[-1, len)`, and re-derive a shuffle order when `shuffle_mode`
is set. `none` models the `KeyError` escaping from a malformed record. -/
def PlayQueue.load_from_dicts (q : PlayQueue) (records : List QueueItemRecord)
    (current_index : Int) (now : Int) (r : List Nat) : Option PlayQueue :=
  let q0 := q.clear
  match loadItems records now with
  | none => none
  | some items =>
    let q1 := { q0 with items := items }
    let q2 := { q1 with current_index :=
      if -1 ≤ current_index ∧ current_index < (items.length : Int) then current_index
      else -1 }
    some (if q2.shuffle_mode then q2.create_shuffle_order r else q2)

/-- The shuffle-projection invariant: while shuffling, the projection is a
permutation of the canonical index range. -/
def shuffleOk (q : PlayQueue) : Prop :=
  q.shuffle_mode = true → q.shuffle_order.Perm (List.range q.items.length)

instance (q : PlayQueue) : Decidable (shuffleOk q) := by
  unfold shuffleOk; infer_instance

/-- The cursor-bounds invariant. -/
def cursorOk (q : PlayQueue) : Prop :=
  q.current_index = -1 ∨ (0 ≤ q.current_index ∧ q.current_index < (q.items.length : Int))

instance (q : PlayQueue) : Decidable (cursorOk q) := by
  unfold cursorOk; infer_instance

/-- One invocation outcome of the wrapped async operation in
`wrkmon/utils/retry.py`: it either returns a value or raises a failure. -/
inductive Outcome (α ε : Type) where
  | success (a : α)
  | failure (e : ε)
deriving Repr, DecidableEq

/-- The attempt loop of `retry_with_backoff.decorator.wrapper`
(`wrkmon/utils/retry.py`): `op attempt` is the outcome of the
`attempt`-th call; `retryable e` models `isinstance(e, exceptions)`;
`remaining` is `max_retries - attempt`, so `remaining = 0` is Python's
`attempt == max_retries` check. The sleep between attempts has no
observable effect on the result and is not modelled. Returns the final
result (`Except.error` models the raised failure, re-raised unchanged)
together with the number of calls made. -/
def retryGo {α ε : Type} (retryable : ε → Bool) (op : Nat → Outcome α ε)
    (attempt remaining : Nat) : Except ε α × Nat :=
  match op attempt with
  | .success a => (.ok a, attempt + 1)
  | .failure e =>
    if retryable e then
      match remaining with
      | 0 => (.error e, attempt + 1)
      | r + 1 => retryGo retryable op (attempt + 1) r
    else (.error e, attempt + 1)

/-- `retry_with_backoff`: run the attempt loop from attempt 0 with
`max_retries` retries remaining. -/
def retry_with_backoff {α ε : Type} (max_retries : Nat) (retryable : ε → Bool)
    (op : Nat → Outcome α ε) : Except ε α × Nat :=
  retryGo retryable op 0 max_retries

/-- A queue mutation for the C1 operation sequences. -/
inductive QOp where
  | add (item : QueueItem)
  | remove (index : Int)
  | move (from_index to_index : Int)
deriving Repr, DecidableEq

/-- Apply one `QOp`; `rng n` supplies the `random.shuffle` result that
`move` consumes when it regenerates the projection. -/
def applyOp (rng : Nat → List Nat) (q : PlayQueue) : QOp → PlayQueue
  | .add item => (q.add item).2
  | .remove i => (q.remove i).2
  | .move f t => (q.move f t (rng q.items.length)).2

/-- Apply a sequence of queue mutations. -/
def applyOps (rng : Nat → List Nat) (q : PlayQueue) (ops : List QOp) : PlayQueue :=
  ops.foldl (applyOp rng) q

/-- The RNG contract: `random.shuffle(list(range(n)))` always yields a
permutation of `range n`. -/
def rngOk (rng : Nat → List Nat) : Prop :=
  ∀ n, (rng n).Perm (List.range n)

example : (QueueItem.from_dict
    { video_id := some "v", title := some "t", channel := some "c",
      duration := some 10, added_at := none, playback_position := none } 99) =
    some { video_id := "v", title := "t", channel := "c", duration := 10,
           added_at := 99, playback_position := 0 } := by decide

/-! ### Sample items for concrete witnesses -/

def itemA : QueueItem := ⟨"idA", "A", "chan", 100, 5, 0⟩

def itemB : QueueItem := ⟨"idB", "B", "chan", 200, 6, 30⟩

def itemC : QueueItem := ⟨"idC", "C", "chan", 300, 7, 0⟩

/-! ### Renumbering lemmas for `remove`'s projection update -/

/-- Filtering `k` out of `range n` and closing the gap yields `range (n-1)`
(pure-`Nat` form). -/
theorem range_filter_map (n k : Nat) (hk : k < n) :
    ((List.range n).filter (fun j => j != k)).map
      (fun j => if k < j then j - 1 else j) = List.range (n - 1) := by
  induction n with
  | zero => omega
  | succ m ih =>
    rw [List.range_succ, List.filter_append, List.map_append]
    rcases Nat.lt_or_ge k m with h | h
    · rw [ih h]
      have hm : m ≠ k := by omega
      have hb : (m != k) = true := by simp [hm]
      have h1 : List.filter (fun j => j != k) [m] = [m] := by
        simp [List.filter, hb]
      rw [h1]
      have h2 : List.map (fun j => if k < j then j - 1 else j) [m] = [m - 1] := by
        simp [h]
      rw [h2]
      have h5 : m + 1 - 1 = m := rfl
      rw [h5]
      conv_rhs => rw [show m = (m - 1) + 1 by omega, List.range_succ]
    · have hk' : k = m := by omega
      subst hk'
      have h1 : List.filter (fun j => j != k) [k] = [] := by simp [List.filter]
      have h2 : (List.range k).filter (fun j => j != k) = List.range k := by
        rw [List.filter_eq_self]
        intro a ha
        have : a < k := List.mem_range.mp ha
        simp; omega
      rw [h1, h2]
      have h3 : (List.range k).map (fun j => if k < j then j - 1 else j) =
          (List.range k).map id := by
        apply List.map_congr_left
        intro a ha
        have hak : a < k := List.mem_range.mp ha
        simp
        omega
      rw [h3, List.map_id]
      simp


/-- The projection update of `remove` maps a permutation of `range n` to a
permutation of `range (n - 1)` when the removed index is in range. -/
theorem remove_order_perm (order : List Nat) (n : Nat) (index : Int)
    (hperm : order.Perm (List.range n)) (h0 : 0 ≤ index) (hn : index < (n : Int)) :
    ((order.filter (fun (i : Nat) => (i : Int) != index)).map
      (fun (i : Nat) => if index < (i : Int) then i - 1 else i)).Perm
      (List.range (n - 1)) := by
  have hk : index.toNat < n := by omega
  have hf : (fun (i : Nat) => (i : Int) != index) = (fun i => i != index.toNat) := by
    funext i
    have hiff : ((i : Int) = index) ↔ (i = index.toNat) := by omega
    simp [bne, hiff]
  have hg : (fun (i : Nat) => if index < (i : Int) then i - 1 else i) =
      (fun i => if index.toNat < i then i - 1 else i) := by
    funext i
    have hiff : (index < (i : Int)) ↔ (index.toNat < i) := by omega
    simp only [hiff]
  rw [hf, hg]
  have h1 := (hperm.filter (fun i => i != index.toNat)).map
    (fun i => if index.toNat < i then i - 1 else i)
  rwa [range_filter_map n index.toNat hk] at h1

/-! ### State-preservation lemmas for the shuffle-order invariant -/

theorem create_shuffle_order_items (q : PlayQueue) (r : List Nat) :
    (q.create_shuffle_order r).items = q.items := by
  by_cases h1 : 0 ≤ q.current_index
  · by_cases h2 : q.current_index.toNat ∈ r <;>
      simp [PlayQueue.create_shuffle_order, h1, h2]
  · simp [PlayQueue.create_shuffle_order, h1]

theorem create_shuffle_order_mode (q : PlayQueue) (r : List Nat) :
    (q.create_shuffle_order r).shuffle_mode = q.shuffle_mode := by
  by_cases h1 : 0 ≤ q.current_index
  · by_cases h2 : q.current_index.toNat ∈ r <;>
      simp [PlayQueue.create_shuffle_order, h1, h2]
  · simp [PlayQueue.create_shuffle_order, h1]

theorem create_shuffle_order_perm (q : PlayQueue) (r : List Nat)
    (hr : r.Perm (List.range q.items.length)) :
    (q.create_shuffle_order r).shuffle_order.Perm (List.range q.items.length) := by
  by_cases h1 : 0 ≤ q.current_index
  · by_cases h2 : q.current_index.toNat ∈ r
    · simp only [PlayQueue.create_shuffle_order, h1, h2, if_pos, if_true]
      exact ((List.perm_cons_erase h2).symm).trans hr
    · simp [PlayQueue.create_shuffle_order, h1, h2]
      exact hr
  · simp [PlayQueue.create_shuffle_order, h1]
    exact hr

/-- `_create_shuffle_order` restores the shuffle invariant whenever it is fed
a permutation of the canonical range. -/
theorem shuffleOk_create (q : PlayQueue) (r : List Nat)
    (hr : r.Perm (List.range q.items.length)) :
    shuffleOk (q.create_shuffle_order r) := by
  intro _
  rw [create_shuffle_order_items]
  exact create_shuffle_order_perm q r hr

theorem shuffleOk_add (q : PlayQueue) (item : QueueItem) (h : shuffleOk q) :
    shuffleOk (q.add item).2 := by
  intro hs
  have hm : q.shuffle_mode = true := by
    simpa [PlayQueue.add] using hs
  simp only [PlayQueue.add, hm, if_true]
  simp only [List.length_append, List.length_cons, List.length_nil,
    Nat.zero_add, Nat.add_sub_cancel]
  rw [List.range_succ]
  exact (h hm).append_right _

theorem shuffleOk_remove (q : PlayQueue) (index : Int) (h : shuffleOk q) :
    shuffleOk (q.remove index).2 := by
  unfold PlayQueue.remove
  split
  · next hrange =>
    intro hs
    simp only at hs ⊢
    have hm : q.shuffle_mode = true := hs
    have hlt : index.toNat < q.items.length := by omega
    have hlen : (q.items.eraseIdx index.toNat).length = q.items.length - 1 := by
      rw [List.length_eraseIdx, if_pos hlt]
    rw [hlen]
    simp only [hm, if_true]
    exact remove_order_perm q.shuffle_order q.items.length index (h hm)
      hrange.1 hrange.2
  · exact h

theorem shuffleOk_move (q : PlayQueue) (f t : Int) (r : List Nat)
    (hr : r.Perm (List.range q.items.length)) (h : shuffleOk q) :
    shuffleOk (q.move f t r).2 := by
  unfold PlayQueue.move
  split
  · next hrange =>
    obtain ⟨hf0, hfn, ht0, htn⟩ := hrange
    have hflt : f.toNat < q.items.length := by omega
    split
    · next heq =>
      rw [List.getElem?_eq_getElem hflt] at heq
      simp at heq
    · next item heq =>
      have hcut : (q.items.eraseIdx f.toNat).length = q.items.length - 1 := by
        rw [List.length_eraseIdx, if_pos hflt]
      have hins : ((q.items.eraseIdx f.toNat).insertIdx t.toNat item).length =
          q.items.length := by
        rw [List.length_insertIdx _ _ (by omega), hcut]
        omega
      by_cases hm : q.shuffle_mode = true
      · simp only [hm, if_true]
        apply shuffleOk_create
        simpa [hins] using hr
      · have hm' : q.shuffle_mode = false := by
          cases hq : q.shuffle_mode
          · rfl
          · exact absurd hq hm
        intro hs
        rw [hm'] at hs
        simp at hs
  · exact h

/-! ### C1 -/

/-- Sample shuffled queue for witnesses. -/
def qC1w : PlayQueue :=
  { items := [itemA, itemB], current_index := 0, shuffle_mode := true,
    repeat_mode := "none", shuffle_order := [1, 0] }

/-- **C1.** For every `PlayQueue` satisfying the shuffle invariant and every
sequence of `add`/`remove`/`move` operations (with in-range or out-of-range
arguments), the shuffle projection remains a permutation of
`[0, len(items))` — every canonical index appears exactly once, with no
duplicates and no gaps — whenever shuffle is active. The RNG hypothesis
`rngOk` states that `random.shuffle(list(range(n)))` yields a permutation
of `range n`. -/
theorem C1_shuffle_projection_invariant (rng : Nat → List Nat) (hrng : rngOk rng)
    (q : PlayQueue) (hq : shuffleOk q) (ops : List QOp) :
    shuffleOk (applyOps rng q ops) := by
  induction ops generalizing q with
  | nil => exact hq
  | cons op rest ih =>
    apply ih
    cases op with
    | add item => exact shuffleOk_add _ _ hq
    | remove i => exact shuffleOk_remove _ _ hq
    | move f t => exact shuffleOk_move _ _ _ _ (hrng _) hq

/-- Witness for C1: a concrete shuffled two-item queue run through an add, an
in-range remove, a move, and an out-of-range remove. -/
theorem C1_shuffle_projection_invariant_witness :
    rngOk (fun n => List.range n) ∧ shuffleOk qC1w ∧
    shuffleOk (applyOps (fun n => List.range n) qC1w
      [QOp.add itemC, QOp.remove 1, QOp.move 0 1, QOp.remove 5]) :=
  ⟨fun _ => List.Perm.refl _, by decide,
    C1_shuffle_projection_invariant (fun n => List.range n)
      (fun _ => List.Perm.refl _) qC1w (by decide) _⟩

/-! ### C2 -/

/-- Statement helper: the queue with its cursor set to `c`. -/
def withCursor (q : PlayQueue) (c : Int) : PlayQueue :=
  { q with current_index := c }

/-- Under the shuffle invariant, a valid cursor always resolves to an item. -/
theorem current_isSome (q : PlayQueue) (hwf : shuffleOk q)
    (h0 : 0 ≤ q.current_index) (hn : q.current_index < (q.items.length : Int)) :
    q.current.isSome := by
  unfold PlayQueue.current
  rw [if_pos ⟨h0, hn⟩]
  by_cases hm : q.shuffle_mode = true ∧ q.shuffle_order ≠ []
  · rw [if_pos hm]
    have hperm := hwf hm.1
    have hlen : q.shuffle_order.length = q.items.length :=
      hperm.length_eq.trans (List.length_range _)
    have hcn : q.current_index.toNat < q.shuffle_order.length := by omega
    rw [List.getElem?_eq_getElem hcn]
    have hmem : q.shuffle_order[q.current_index.toNat] ∈ q.shuffle_order :=
      List.getElem_mem _
    have hlt : q.shuffle_order[q.current_index.toNat] < q.items.length :=
      List.mem_range.mp (hperm.mem_iff.mp hmem)
    simp [List.getElem?_eq_getElem hlt]
  · rw [if_neg hm]
    have hlt : q.current_index.toNat < q.items.length := by omega
    simp [List.getElem?_eq_getElem hlt]

theorem next_repeat_one (q : PlayQueue) (hne : q.items ≠ [])
    (hrm : q.repeat_mode = "one") : q.next = (q.current, q) := by
  unfold PlayQueue.next
  rw [if_neg hne, if_pos hrm]

theorem previous_repeat_one (q : PlayQueue) (hne : q.items ≠ [])
    (hrm : q.repeat_mode = "one") : q.previous = (q.current, q) := by
  unfold PlayQueue.previous
  rw [if_neg hne, if_pos hrm]

/-- `next` advances the cursor by one when not at the last active position. -/
theorem next_advance (q : PlayQueue) (hwf : shuffleOk q) (hne : q.items ≠ [])
    (hone : q.repeat_mode ≠ "one")
    (hlt : q.current_index < (q.items.length : Int) - 1) :
    q.next = ((withCursor q (q.current_index + 1)).current,
              withCursor q (q.current_index + 1)) := by
  unfold PlayQueue.next
  rw [if_neg hne, if_neg hone]
  by_cases hm : q.shuffle_mode = true
  · have hlen : q.shuffle_order.length = q.items.length :=
      (hwf hm).length_eq.trans (List.length_range _)
    rw [if_pos hm, hlen, if_pos hlt]
    rfl
  · rw [if_neg hm, if_pos hlt]
    rfl

/-- `next` with repeat `"none"` at the last active position: no-op. -/
theorem next_none_at_last (q : PlayQueue) (hwf : shuffleOk q) (hne : q.items ≠ [])
    (hrm : q.repeat_mode = "none")
    (hlast : ¬ q.current_index < (q.items.length : Int) - 1) :
    q.next = (none, q) := by
  unfold PlayQueue.next
  rw [if_neg hne, if_neg (show ¬ q.repeat_mode = "one" by rw [hrm]; decide)]
  by_cases hm : q.shuffle_mode = true
  · have hlen : q.shuffle_order.length = q.items.length :=
      (hwf hm).length_eq.trans (List.length_range _)
    rw [if_pos hm, hlen, if_neg hlast,
      if_neg (show ¬ q.repeat_mode = "all" by rw [hrm]; decide)]
  · rw [if_neg hm, if_neg hlast,
      if_neg (show ¬ q.repeat_mode = "all" by rw [hrm]; decide)]

/-- `next` with repeat `"all"` at the last active position wraps to 0. -/
theorem next_wrap_at_last (q : PlayQueue) (hwf : shuffleOk q) (hne : q.items ≠ [])
    (hrm : q.repeat_mode = "all")
    (hlast : ¬ q.current_index < (q.items.length : Int) - 1) :
    q.next = ((withCursor q 0).current, withCursor q 0) := by
  unfold PlayQueue.next
  rw [if_neg hne, if_neg (show ¬ q.repeat_mode = "one" by rw [hrm]; decide)]
  by_cases hm : q.shuffle_mode = true
  · have hlen : q.shuffle_order.length = q.items.length :=
      (hwf hm).length_eq.trans (List.length_range _)
    rw [if_pos hm, hlen, if_neg hlast, if_pos hrm]
    rfl
  · rw [if_neg hm, if_neg hlast, if_pos hrm]
    rfl

/-- `previous` retreats the cursor by one when not at the first position. -/
theorem previous_retreat (q : PlayQueue) (hne : q.items ≠ [])
    (hone : q.repeat_mode ≠ "one") (hpos : 0 < q.current_index) :
    q.previous = ((withCursor q (q.current_index - 1)).current,
                  withCursor q (q.current_index - 1)) := by
  unfold PlayQueue.previous
  rw [if_neg hne, if_neg hone, if_pos hpos]
  rfl

/-- `previous` with repeat `"none"` at the first position: no-op. -/
theorem previous_none_at_first (q : PlayQueue) (hne : q.items ≠ [])
    (hrm : q.repeat_mode = "none") (hfirst : ¬ 0 < q.current_index) :
    q.previous = (none, q) := by
  unfold PlayQueue.previous
  rw [if_neg hne, if_neg (show ¬ q.repeat_mode = "one" by rw [hrm]; decide),
    if_neg hfirst, if_neg (show ¬ q.repeat_mode = "all" by rw [hrm]; decide)]

/-- `previous` with repeat `"all"` at the first position wraps to the last
index. -/
theorem previous_wrap_at_first (q : PlayQueue) (hne : q.items ≠ [])
    (hrm : q.repeat_mode = "all") (hfirst : ¬ 0 < q.current_index) :
    q.previous = ((withCursor q ((q.items.length : Int) - 1)).current,
                  withCursor q ((q.items.length : Int) - 1)) := by
  unfold PlayQueue.previous
  rw [if_neg hne, if_neg (show ¬ q.repeat_mode = "one" by rw [hrm]; decide),
    if_neg hfirst, if_pos hrm]
  rfl

/-- **C2.** For every well-formed queue with a valid cursor, `next()` and
`previous()` follow the repeat-mode table over the active order and never
raise: with repeat `"none"`, `next()` at the last active position and
`previous()` at the first return `none` and leave the cursor unchanged;
with repeat `"one"`, both return the current item and leave the cursor
unchanged; with repeat `"all"`, `next()` at the last position wraps the
cursor to 0 and returns the first active item, and `previous()` at the
first position wraps the cursor to the last index and returns the last
active item; elsewhere they advance or retreat the cursor by one and return
that item (the current item of the moved cursor, which exists). -/
theorem C2_repeat_mode_table (q : PlayQueue) (hwf : shuffleOk q)
    (h0 : 0 ≤ q.current_index) (hn : q.current_index < (q.items.length : Int)) :
    (q.repeat_mode = "one" →
      q.next = (q.current, q) ∧ q.previous = (q.current, q) ∧ q.current.isSome) ∧
    (q.repeat_mode = "none" →
      (q.current_index = (q.items.length : Int) - 1 → q.next = (none, q)) ∧
      (q.current_index < (q.items.length : Int) - 1 →
        q.next = ((withCursor q (q.current_index + 1)).current,
                  withCursor q (q.current_index + 1)) ∧
        ((withCursor q (q.current_index + 1)).current).isSome) ∧
      (q.current_index = 0 → q.previous = (none, q)) ∧
      (0 < q.current_index →
        q.previous = ((withCursor q (q.current_index - 1)).current,
                      withCursor q (q.current_index - 1)) ∧
        ((withCursor q (q.current_index - 1)).current).isSome)) ∧
    (q.repeat_mode = "all" →
      (q.current_index = (q.items.length : Int) - 1 →
        q.next = ((withCursor q 0).current, withCursor q 0) ∧
        ((withCursor q 0).current).isSome) ∧
      (q.current_index < (q.items.length : Int) - 1 →
        q.next = ((withCursor q (q.current_index + 1)).current,
                  withCursor q (q.current_index + 1)) ∧
        ((withCursor q (q.current_index + 1)).current).isSome) ∧
      (q.current_index = 0 →
        q.previous = ((withCursor q ((q.items.length : Int) - 1)).current,
                      withCursor q ((q.items.length : Int) - 1)) ∧
        ((withCursor q ((q.items.length : Int) - 1)).current).isSome) ∧
      (0 < q.current_index →
        q.previous = ((withCursor q (q.current_index - 1)).current,
                      withCursor q (q.current_index - 1)) ∧
        ((withCursor q (q.current_index - 1)).current).isSome)) := by
  have hne : q.items ≠ [] := by
    intro h
    rw [h] at hn
    simp at hn
    omega
  refine ⟨?_, ?_, ?_⟩
  · intro hrm
    exact ⟨next_repeat_one q hne hrm, previous_repeat_one q hne hrm,
      current_isSome q hwf h0 hn⟩
  · intro hrm
    have hone : q.repeat_mode ≠ "one" := by rw [hrm]; decide
    refine ⟨?_, ?_, ?_, ?_⟩
    · intro hlast
      exact next_none_at_last q hwf hne hrm (by omega)
    · intro hlt
      refine ⟨next_advance q hwf hne hone hlt, ?_⟩
      exact current_isSome _ hwf
        (show (0 : Int) ≤ q.current_index + 1 by omega)
        (show q.current_index + 1 < (q.items.length : Int) by omega)
    · intro hfirst
      exact previous_none_at_first q hne hrm (by omega)
    · intro hpos
      refine ⟨previous_retreat q hne hone hpos, ?_⟩
      exact current_isSome _ hwf
        (show (0 : Int) ≤ q.current_index - 1 by omega)
        (show q.current_index - 1 < (q.items.length : Int) by omega)
  · intro hrm
    have hone : q.repeat_mode ≠ "one" := by rw [hrm]; decide
    refine ⟨?_, ?_, ?_, ?_⟩
    · intro hlast
      refine ⟨next_wrap_at_last q hwf hne hrm (by omega), ?_⟩
      exact current_isSome _ hwf
        (show (0 : Int) ≤ (0 : Int) by omega)
        (show (0 : Int) < (q.items.length : Int) by omega)
    · intro hlt
      refine ⟨next_advance q hwf hne hone hlt, ?_⟩
      exact current_isSome _ hwf
        (show (0 : Int) ≤ q.current_index + 1 by omega)
        (show q.current_index + 1 < (q.items.length : Int) by omega)
    · intro hfirst
      refine ⟨previous_wrap_at_first q hne hrm (by omega), ?_⟩
      exact current_isSome _ hwf
        (show (0 : Int) ≤ (q.items.length : Int) - 1 by omega)
        (show (q.items.length : Int) - 1 < (q.items.length : Int) by omega)
    · intro hpos
      refine ⟨previous_retreat q hne hone hpos, ?_⟩
      exact current_isSome _ hwf
        (show (0 : Int) ≤ q.current_index - 1 by omega)
        (show q.current_index - 1 < (q.items.length : Int) by omega)

/-- Sample un-shuffled queue for the C2 witness. -/
def qC2w : PlayQueue :=
  { items := [itemA, itemB, itemC], current_index := 1, shuffle_mode := false,
    repeat_mode := "none", shuffle_order := [] }

/-- Witness for C2: on a concrete three-item queue with repeat `"none"` and
cursor 1, `next()` advances the cursor to 2. -/
theorem C2_repeat_mode_table_witness :
    (0 : Int) ≤ qC2w.current_index ∧
    qC2w.current_index < (qC2w.items.length : Int) ∧
    qC2w.next = ((withCursor qC2w 2).current, withCursor qC2w 2) := by
  refine ⟨by decide, by decide, ?_⟩
  have h := C2_repeat_mode_table qC2w (by decide) (by decide) (by decide)
  exact ((h.2.1 rfl).2.1 (by decide)).1

/-! ### C3 -/

/-- Shuffled three-item queue: projection `[2,1,0]`, cursor at slot 1
(playing `itemB`). -/
def qC3 : PlayQueue :=
  { items := [itemA, itemB, itemC], current_index := 1, shuffle_mode := true,
    repeat_mode := "none", shuffle_order := [2, 1, 0] }

/-- **C3 counterexample.** The claim says the cursor is adjusted by the
removed item's *active-order slot*. On `qC3`, `remove 2` removes canonical
index 2 whose active-order slot is 0, which is before the cursor (1), so
the claim demands the cursor be decremented to 0 (keeping `itemB`
playing). The code compares the *canonical* index 2 with the cursor
instead and leaves the cursor at 1, changing the playing item from
`itemB` to `itemA`. -/
theorem C3_remove_cursor_counterexample :
    qC3.shuffle_order.indexOf 2 = 0 ∧ qC3.current_index = 1 ∧
    qC3.current = some itemB ∧
    (qC3.remove 2).2.current_index = 1 ∧
    (qC3.remove 2).2.current = some itemA := by decide

/-- **C3 amended.** `remove(i)` with `i` out of range returns `none` and
changes nothing; with `i` in range it removes the canonical item at index
`i`, strips the removed canonical index from the projection and decrements
every projection entry greater than `i` (when shuffling), and adjusts the
cursor by comparing the *canonical* removal index with it (not the
active-order slot): if `i < cursor` the cursor is decremented; if
`i = cursor` it is clamped to `min(cursor, len(items') - 1)` (possibly -1
on a now-empty queue); otherwise it is unchanged. -/
theorem C3_remove_amended (q : PlayQueue) (index : Int) :
    (¬ (0 ≤ index ∧ index < (q.items.length : Int)) → q.remove index = (none, q)) ∧
    ((0 ≤ index ∧ index < (q.items.length : Int)) →
      (q.remove index).1 = q.items[index.toNat]? ∧
      (q.remove index).2.items = q.items.eraseIdx index.toNat ∧
      (q.shuffle_mode = true →
        (q.remove index).2.shuffle_order =
          (q.shuffle_order.filter (fun (i : Nat) => (i : Int) != index)).map
            (fun (i : Nat) => if index < (i : Int) then i - 1 else i)) ∧
      (q.shuffle_mode = false →
        (q.remove index).2.shuffle_order = q.shuffle_order) ∧
      (q.remove index).2.current_index =
        (if index < q.current_index then q.current_index - 1
         else if index = q.current_index then
           min q.current_index (((q.items.eraseIdx index.toNat).length : Int) - 1)
         else q.current_index)) := by
  constructor
  · intro hout
    unfold PlayQueue.remove
    rw [if_neg hout]
  · intro hin
    unfold PlayQueue.remove
    rw [if_pos hin]
    refine ⟨rfl, rfl, ?_, ?_, ?_⟩
    · intro hm
      simp [hm]
    · intro hm
      simp [hm]
    · show (if index < q.current_index then q.current_index - 1
        else if index = q.current_index then
          (if ((q.items.eraseIdx index.toNat).length : Int) ≤ q.current_index then
            ((q.items.eraseIdx index.toNat).length : Int) - 1
          else q.current_index)
        else q.current_index) = _
      simp only [min_def]
      split_ifs <;> omega

/-- Witness for C3 amended: removing index 0 from an un-shuffled two-item
queue with the cursor at 1 decrements the cursor. -/
theorem C3_remove_amended_witness :
    (0 : Int) ≤ 0 ∧ (0 : Int) < (2 : Int) ∧
    ((PlayQueue.mk [itemA, itemB] 1 false "none" []).remove 0).2.current_index = 0 := by
  refine ⟨by decide, by decide, ?_⟩
  have h := (C3_remove_amended (PlayQueue.mk [itemA, itemB] 1 false "none" []) 0).2
    (by decide)
  rw [h.2.2.2.2]
  decide

/-! ### C4 -/

/-- **C4.** For every non-empty well-formed queue with a valid cursor,
`toggle_shuffle()` followed by reading the current item returns the same
item as before toggling, in both directions: enabling shuffle relocates the
playing item's canonical index to projection position 0 and sets the cursor
to 0; disabling shuffle sets the cursor to the playing item's canonical
index before discarding the projection. `r` is the `random.shuffle` result
consumed when enabling. -/
theorem C4_toggle_shuffle_preserves_current (q : PlayQueue) (r : List Nat)
    (hwf : shuffleOk q) (h0 : 0 ≤ q.current_index)
    (hn : q.current_index < (q.items.length : Int))
    (hr : r.Perm (List.range q.items.length)) :
    (q.toggle_shuffle r).2.current = q.current ∧
    (q.shuffle_mode = false →
      (q.toggle_shuffle r).2.shuffle_mode = true ∧
      (q.toggle_shuffle r).2.current_index = 0 ∧
      (q.toggle_shuffle r).2.shuffle_order.head? = some q.current_index.toNat) ∧
    (q.shuffle_mode = true →
      (q.toggle_shuffle r).2.shuffle_mode = false ∧
      (q.toggle_shuffle r).2.shuffle_order = [] ∧
      ∃ a : Nat, q.shuffle_order[q.current_index.toNat]? = some a ∧
        (q.toggle_shuffle r).2.current_index = (a : Int)) := by
  have hcn : q.current_index.toNat < q.items.length := by omega
  cases hm : q.shuffle_mode with
  | false =>
    have hmem : q.current_index.toNat ∈ r :=
      hr.mem_iff.mpr (List.mem_range.mpr hcn)
    have hstep : (q.toggle_shuffle r).2 =
        { q with shuffle_mode := true, current_index := 0,
                 shuffle_order :=
                   q.current_index.toNat :: r.erase q.current_index.toNat } := by
      unfold PlayQueue.toggle_shuffle
      rw [if_neg (by rw [hm]; simp)]
      unfold PlayQueue.shuffle PlayQueue.create_shuffle_order
      dsimp only
      rw [if_pos h0, if_pos hmem]
    rw [hstep]
    refine ⟨?_, ?_, ?_⟩
    · have hn0 : (0 : Int) < (q.items.length : Int) := by omega
      unfold PlayQueue.current
      dsimp only
      rw [if_pos ⟨le_refl (0 : Int), hn0⟩, if_pos ⟨rfl, List.cons_ne_nil _ _⟩,
        if_pos ⟨h0, hn⟩, if_neg (by rw [hm]; simp)]
      simp
    · intro _
      exact ⟨rfl, rfl, rfl⟩
    · intro hms
      exact absurd hms (by simp)
  | true =>
    have hperm := hwf hm
    have hlen : q.shuffle_order.length = q.items.length :=
      hperm.length_eq.trans (List.length_range _)
    have hone : q.shuffle_order ≠ [] := by
      intro h
      rw [h] at hlen
      simp at hlen
      omega
    have hcilt : q.current_index.toNat < q.shuffle_order.length := by omega
    have hget : q.shuffle_order[q.current_index.toNat]? =
        some (q.shuffle_order.get ⟨q.current_index.toNat, hcilt⟩) :=
      List.getElem?_eq_getElem hcilt
    have hamem : q.shuffle_order.get ⟨q.current_index.toNat, hcilt⟩ ∈
        q.shuffle_order := List.get_mem _ _ hcilt
    have halt : q.shuffle_order.get ⟨q.current_index.toNat, hcilt⟩ <
        q.items.length := List.mem_range.mp (hperm.mem_iff.mp hamem)
    have hstep : (q.toggle_shuffle r).2 =
        { q with shuffle_mode := false,
                 current_index :=
                   (q.shuffle_order.get ⟨q.current_index.toNat, hcilt⟩ : Int),
                 shuffle_order := [] } := by
      unfold PlayQueue.toggle_shuffle
      rw [if_pos hm]
      unfold PlayQueue.unshuffle
      dsimp only
      rw [if_pos ⟨hone, h0, by omega⟩, hget]
    rw [hstep]
    refine ⟨?_, ?_, ?_⟩
    · unfold PlayQueue.current
      dsimp only
      rw [if_pos ⟨by omega, by omega⟩, if_neg (by simp),
        if_pos ⟨h0, hn⟩, if_pos ⟨hm, hone⟩, hget]
      simp
    · intro hmf
      exact absurd hmf (by simp)
    · intro _
      exact ⟨rfl, rfl, ⟨_, hget, rfl⟩⟩

/-- Shuffled queue for the C4 witness: order `[1,0]`, cursor 0 (playing
`itemB`). -/
def qC4w : PlayQueue :=
  { items := [itemA, itemB], current_index := 0, shuffle_mode := true,
    repeat_mode := "none", shuffle_order := [1, 0] }

/-- Witness for C4: disabling shuffle on `qC4w` keeps `itemB` playing. -/
theorem C4_toggle_shuffle_preserves_current_witness :
    shuffleOk qC4w ∧ (0 : Int) ≤ qC4w.current_index ∧
    qC4w.current_index < (qC4w.items.length : Int) ∧
    (qC4w.toggle_shuffle [0, 1]).2.current = qC4w.current := by
  refine ⟨by decide, by decide, by decide, ?_⟩
  exact (C4_toggle_shuffle_preserves_current qC4w [0, 1] (by decide) (by decide)
    (by decide) (by decide)).1

/-! ### C5 -/

theorem create_shuffle_order_repeat (q : PlayQueue) (r : List Nat) :
    (q.create_shuffle_order r).repeat_mode = q.repeat_mode := by
  by_cases h1 : 0 ≤ q.current_index
  · by_cases h2 : q.current_index.toNat ∈ r <;>
      simp [PlayQueue.create_shuffle_order, h1, h2]
  · simp [PlayQueue.create_shuffle_order, h1]

/-- A serialised item deserialises to itself (all fields are written, so no
default kicks in). -/
theorem from_dict_to_dict (item : QueueItem) (now : Int) :
    QueueItem.from_dict item.to_dict now = some item := rfl

/-- Reloading the serialised item list reproduces it exactly. -/
theorem loadItems_map_to_dict (l : List QueueItem) (now : Int) :
    loadItems (l.map QueueItem.to_dict) now = some l := by
  induction l with
  | nil => rfl
  | cons x xs ih =>
    simp [List.map_cons, loadItems, from_dict_to_dict, ih]

/-- Shuffled queue for the C5 counterexample: projection `[1,0]`, cursor at
slot 0, so `itemB` is playing. -/
def qC5 : PlayQueue :=
  { items := [itemA, itemB], current_index := 0, shuffle_mode := true,
    repeat_mode := "none", shuffle_order := [1, 0] }

/-- **C5 counterexample.** Reloading `qC5`'s own snapshot (item records plus
cursor, with the same shuffle and repeat flags) does not preserve the
playing item: before the round trip `itemB` plays (projection slot 0 points
at canonical index 1), but `load_from_dicts` reinterprets the saved cursor
canonically and the rebuilt projection (here from the legitimate
`random.shuffle` output `[0,1]`) pins canonical index 0 to the front, so
`itemA` plays afterwards. -/
theorem C5_snapshot_roundtrip_counterexample :
    qC5.current = some itemB ∧
    ([0, 1] : List Nat).Perm (List.range qC5.items.length) ∧
    qC5.load_from_dicts qC5.to_dict_list qC5.current_index 0 [0, 1] =
      some (PlayQueue.mk [itemA, itemB] 0 true "none" [0, 1]) ∧
    (PlayQueue.mk [itemA, itemB] 0 true "none" [0, 1]).current = some itemA ∧
    itemA ≠ itemB := by decide

/-- **C5 amended.** Loading the snapshot produced from `q` (the ordered item
records together with `q`'s cursor, with `q`'s flags still set) fully
replaces the state and yields a queue with the same canonical item
sequence, the same shuffle and repeat flags, and the cursor value
preserved; when shuffle is inactive the cursor resolves to the same playing
item. When shuffle was active a fresh projection is re-derived (again a
permutation), but the saved cursor is reinterpreted as a *canonical* index:
the relocation pins that canonical index to projection position 0, so the
item that plays after the load is `items[savedCursor]`, not in general the
item that was playing before. -/
theorem C5_snapshot_roundtrip_amended (q : PlayQueue) (r : List Nat) (now : Int)
    (hc : q.current_index = -1 ∨
      (0 ≤ q.current_index ∧ q.current_index < (q.items.length : Int)))
    (hr : r.Perm (List.range q.items.length)) :
    ∃ q', q.load_from_dicts q.to_dict_list q.current_index now r = some q' ∧
      q'.items = q.items ∧
      q'.shuffle_mode = q.shuffle_mode ∧
      q'.repeat_mode = q.repeat_mode ∧
      (q.shuffle_mode = false →
        q'.current_index = q.current_index ∧ q'.current = q.current) ∧
      (q.shuffle_mode = true →
        q'.shuffle_order.Perm (List.range q.items.length) ∧
        (q.current_index = -1 → q'.current_index = -1 ∧ q'.current = none) ∧
        (0 ≤ q.current_index →
          q'.current_index = 0 ∧
          q'.current = q.items[q.current_index.toNat]?)) := by
  have hcond : -1 ≤ q.current_index ∧ q.current_index < (q.items.length : Int) := by
    rcases hc with h | ⟨h1, h2⟩
    · constructor <;> omega
    · constructor <;> omega
  cases hm : q.shuffle_mode with
  | false =>
    have hload : q.load_from_dicts q.to_dict_list q.current_index now r =
        some { q with shuffle_order := [] } := by
      unfold PlayQueue.load_from_dicts PlayQueue.to_dict_list PlayQueue.clear
      rw [loadItems_map_to_dict]
      dsimp only
      rw [if_pos hcond, if_neg (by rw [hm]; simp)]
    refine ⟨_, hload, rfl, hm, rfl, ?_, ?_⟩
    · intro _
      refine ⟨rfl, ?_⟩
      unfold PlayQueue.current
      dsimp only
      by_cases hA : 0 ≤ q.current_index ∧ q.current_index < (q.items.length : Int)
      · rw [if_pos hA, if_pos hA, if_neg (by simp), if_neg (by rw [hm]; simp)]
      · rw [if_neg hA, if_neg hA]
    · intro hms
      exact absurd hms (by simp)
  | true =>
    rcases hc with hneg | ⟨h1, h2⟩
    · have hload : q.load_from_dicts q.to_dict_list q.current_index now r =
          some { q with shuffle_order := r } := by
        unfold PlayQueue.load_from_dicts PlayQueue.to_dict_list PlayQueue.clear
        rw [loadItems_map_to_dict]
        dsimp only
        rw [if_pos hcond, if_pos hm]
        unfold PlayQueue.create_shuffle_order
        dsimp only
        rw [if_neg (by omega)]
      refine ⟨_, hload, rfl, hm, rfl, ?_, ?_⟩
      · intro hmf
        exact absurd hmf (by simp)
      · intro _
        refine ⟨hr, ?_, ?_⟩
        · intro _
          refine ⟨hneg, ?_⟩
          unfold PlayQueue.current
          dsimp only
          rw [if_neg (by omega)]
        · intro h0'
          exact absurd h0' (by omega)
    · have hcn : q.current_index.toNat < q.items.length := by omega
      have hmem : q.current_index.toNat ∈ r :=
        hr.mem_iff.mpr (List.mem_range.mpr hcn)
      have hload : q.load_from_dicts q.to_dict_list q.current_index now r =
          some { q with
                 current_index := 0,
                 shuffle_order :=
                   q.current_index.toNat :: r.erase q.current_index.toNat } := by
        unfold PlayQueue.load_from_dicts PlayQueue.to_dict_list PlayQueue.clear
        rw [loadItems_map_to_dict]
        dsimp only
        rw [if_pos hcond, if_pos hm]
        unfold PlayQueue.create_shuffle_order
        dsimp only
        rw [if_pos h1, if_pos hmem]
      refine ⟨_, hload, rfl, hm, rfl, ?_, ?_⟩
      · intro hmf
        exact absurd hmf (by simp)
      · intro _
        refine ⟨((List.perm_cons_erase hmem).symm).trans hr, ?_, ?_⟩
        · intro habs
          exact absurd habs (by omega)
        · intro _
          refine ⟨rfl, ?_⟩
          unfold PlayQueue.current
          dsimp only
          rw [if_pos ⟨le_refl (0 : Int), by omega⟩,
            if_pos ⟨hm, List.cons_ne_nil _ _⟩]
          simp

/-- Un-shuffled queue for the C5 witness. -/
def qC5w : PlayQueue :=
  { items := [itemA, itemB], current_index := 1, shuffle_mode := false,
    repeat_mode := "all", shuffle_order := [] }

/-- Witness for C5 amended: the snapshot round trip on an un-shuffled queue
preserves the playing item. -/
theorem C5_snapshot_roundtrip_amended_witness :
    (qC5w.current_index = -1 ∨
      (0 ≤ qC5w.current_index ∧ qC5w.current_index < (qC5w.items.length : Int))) ∧
    ([0, 1] : List Nat).Perm (List.range qC5w.items.length) ∧
    ∃ q', qC5w.load_from_dicts qC5w.to_dict_list qC5w.current_index 0 [0, 1] =
        some q' ∧ q'.current = qC5w.current := by
  refine ⟨by decide, by decide, ?_⟩
  obtain ⟨q', hq', _, _, _, hfalse, _⟩ :=
    C5_snapshot_roundtrip_amended qC5w [0, 1] 0 (by decide) (by decide)
  exact ⟨q', hq', (hfalse rfl).2⟩

/-! ### C6 -/

/-- A call that returns ends the loop with the value and `attempt + 1`
calls made. -/
theorem retryGo_success {α ε : Type} (retryable : ε → Bool)
    (op : Nat → Outcome α ε) (attempt : Nat) (a : α)
    (hop : op attempt = .success a) (r : Nat) :
    retryGo retryable op attempt r = (.ok a, attempt + 1) := by
  conv_lhs => rw [retryGo]
  rw [hop]

/-- A non-retryable failure is re-raised at once. -/
theorem retryGo_fail_stop {α ε : Type} (retryable : ε → Bool)
    (op : Nat → Outcome α ε) (attempt : Nat) (e : ε)
    (hop : op attempt = .failure e) (hret : retryable e = false) (r : Nat) :
    retryGo retryable op attempt r = (.error e, attempt + 1) := by
  conv_lhs => rw [retryGo]
  rw [hop]
  simp [hret]

/-- A retryable failure with no retries left is re-raised unchanged. -/
theorem retryGo_fail_zero {α ε : Type} (retryable : ε → Bool)
    (op : Nat → Outcome α ε) (attempt : Nat) (e : ε)
    (hop : op attempt = .failure e) (hret : retryable e = true) :
    retryGo retryable op attempt 0 = (.error e, attempt + 1) := by
  conv_lhs => rw [retryGo]
  rw [hop]
  simp [hret]

/-- A retryable failure with retries left moves to the next attempt. -/
theorem retryGo_fail_step {α ε : Type} (retryable : ε → Bool)
    (op : Nat → Outcome α ε) (attempt : Nat) (e : ε)
    (hop : op attempt = .failure e) (hret : retryable e = true) (r : Nat) :
    retryGo retryable op attempt (r + 1) =
      retryGo retryable op (attempt + 1) r := by
  conv_lhs => rw [retryGo]
  rw [hop]
  simp [hret]

/-- The attempt loop makes at most `attempt + remaining + 1` calls counting
from call index `attempt`. -/
theorem retryGo_count_le {α ε : Type} (retryable : ε → Bool)
    (op : Nat → Outcome α ε) (remaining attempt : Nat) :
    (retryGo retryable op attempt remaining).2 ≤ attempt + remaining + 1 := by
  induction remaining generalizing attempt with
  | zero =>
    cases hop : op attempt with
    | success a =>
      rw [retryGo_success retryable op attempt a hop]
    | failure e =>
      by_cases hret : retryable e = true
      · rw [retryGo_fail_zero retryable op attempt e hop hret]
      · rw [retryGo_fail_stop retryable op attempt e hop
          (by simpa using hret) 0]
  | succ r ih =>
    cases hop : op attempt with
    | success a =>
      rw [retryGo_success retryable op attempt a hop]
      show attempt + 1 ≤ attempt + (r + 1) + 1
      omega
    | failure e =>
      by_cases hret : retryable e = true
      · rw [retryGo_fail_step retryable op attempt e hop hret r]
        have h := ih (attempt + 1)
        omega
      · rw [retryGo_fail_stop retryable op attempt e hop
          (by simpa using hret) (r + 1)]
        show attempt + 1 ≤ attempt + (r + 1) + 1
        omega

/-- If every call from `attempt` up to (excluding) `k` fails retryably, the
loop reaches call `k` with the retry budget reduced accordingly. -/
theorem retryGo_skip {α ε : Type} (retryable : ε → Bool)
    (op : Nat → Outcome α ε) (remaining attempt k : Nat) (hak : attempt ≤ k)
    (hk : k ≤ attempt + remaining)
    (hfail : ∀ j, attempt ≤ j → j < k →
      ∃ e, op j = .failure e ∧ retryable e = true) :
    retryGo retryable op attempt remaining =
      retryGo retryable op k (attempt + remaining - k) := by
  induction remaining generalizing attempt with
  | zero =>
    have heq : attempt = k := by omega
    subst heq
    rw [show attempt + 0 - attempt = 0 by omega]
  | succ r ih =>
    rcases Nat.eq_or_lt_of_le hak with heq | hlt
    · subst heq
      rw [show attempt + (r + 1) - attempt = r + 1 by omega]
    · obtain ⟨e, hop, hret⟩ := hfail attempt (le_refl _) hlt
      rw [retryGo_fail_step retryable op attempt e hop hret r,
        ih (attempt + 1) (by omega) (by omega)
          (fun j hj1 hj2 => hfail j (by omega) hj2)]
      congr 1
      omega

/-- **C6.** For every retry policy and wrapped operation: the operation is
called at most `maxRetries + 1` times; a success at attempt `k` (after `k`
retryable failures) is returned immediately with exactly `k + 1` calls; a
failure of a non-retryable kind is re-raised immediately after exactly that
one call with no further attempts; and when all `maxRetries + 1` attempts
fail with retryable kinds, the final failure (the one raised on the last
attempt) is re-raised unchanged — same kind and payload, no wrapping. -/
theorem C6_retry_with_backoff {α ε : Type} (maxRetries : Nat)
    (retryable : ε → Bool) (op : Nat → Outcome α ε) :
    (retry_with_backoff maxRetries retryable op).2 ≤ maxRetries + 1 ∧
    (∀ k a, k ≤ maxRetries → op k = .success a →
      (∀ j, j < k → ∃ e, op j = .failure e ∧ retryable e = true) →
      retry_with_backoff maxRetries retryable op = (.ok a, k + 1)) ∧
    (∀ k e, k ≤ maxRetries → op k = .failure e → retryable e = false →
      (∀ j, j < k → ∃ e', op j = .failure e' ∧ retryable e' = true) →
      retry_with_backoff maxRetries retryable op = (.error e, k + 1)) ∧
    ((∀ j, j ≤ maxRetries → ∃ e, op j = .failure e ∧ retryable e = true) →
      ∃ e, op maxRetries = .failure e ∧
        retry_with_backoff maxRetries retryable op =
          (.error e, maxRetries + 1)) := by
  refine ⟨?_, ?_, ?_, ?_⟩
  · have h := retryGo_count_le retryable op maxRetries 0
    unfold retry_with_backoff
    omega
  · intro k a hk hop hfail
    unfold retry_with_backoff
    rw [retryGo_skip retryable op maxRetries 0 k (by omega) (by omega)
      (fun j _ hj => hfail j hj)]
    exact retryGo_success retryable op k a hop _
  · intro k e hk hop hret hfail
    unfold retry_with_backoff
    rw [retryGo_skip retryable op maxRetries 0 k (by omega) (by omega)
      (fun j _ hj => hfail j hj)]
    exact retryGo_fail_stop retryable op k e hop hret _
  · intro hall
    obtain ⟨e, hop, hret⟩ := hall maxRetries (le_refl _)
    refine ⟨e, hop, ?_⟩
    unfold retry_with_backoff
    rw [retryGo_skip retryable op maxRetries 0 maxRetries (by omega) (by omega)
      (fun j _ hj => hall j (by omega)),
      show 0 + maxRetries - maxRetries = 0 by omega]
    exact retryGo_fail_zero retryable op maxRetries e hop hret

/-- Concrete operation for the C6 witness: fails (retryably) on the first
two calls, succeeds on the third. -/
def opC6 : Nat → Outcome Nat Nat :=
  fun k => if k < 2 then .failure k else .success 42

/-- Witness for C6 (mirrors the spec's test): an operation failing twice
with a retryable kind then succeeding, wrapped with `maxRetries = 3`,
returns the success value after exactly 3 calls. -/
theorem C6_retry_with_backoff_witness :
    retry_with_backoff 3 (fun _ => true) opC6 = (.ok 42, 3) :=
  (C6_retry_with_backoff 3 (fun _ => true) opC6).2.1 2 42 (by omega) (by decide)
    (fun j hj => ⟨j, by simp [opC6, hj], rfl⟩)

/-! ### C7 -/

/-- Record with the four required fields present and both optional fields
absent. -/
def recC7 : QueueItemRecord :=
  { video_id := some "v", title := some "t", channel := some "c",
    duration := some 10, added_at := none, playback_position := none }

/-- **C7 counterexample.** The claim says all six fields are required and a
missing one makes construction fail. `recC7` is missing `added_at` and
`playback_position`, yet `from_dict` succeeds, defaulting `added_at` to the
current time and `playback_position` to 0. -/
theorem C7_from_dict_counterexample :
    recC7.added_at = none ∧ recC7.playback_position = none ∧
    QueueItem.from_dict recC7 99 =
      some (QueueItem.mk "v" "t" "c" 10 99 0) := by decide

/-- **C7 amended.** Constructing a `QueueItem` from a persisted record fails
fast (raises `KeyError`) exactly when one of the four required fields —
`video_id`, `title`, `channel`, `duration` — is missing; the remaining two
fields are optional: `added_at` defaults to the current time and
`playback_position` defaults to 0 when absent. -/
theorem C7_from_dict_amended (data : QueueItemRecord) (now : Int) :
    (QueueItem.from_dict data now = none ↔
      (data.video_id = none ∨ data.title = none ∨ data.channel = none ∨
       data.duration = none)) ∧
    (∀ v t c d, data.video_id = some v → data.title = some t →
      data.channel = some c → data.duration = some d →
      QueueItem.from_dict data now =
        some (QueueItem.mk v t c d (data.added_at.getD now)
          (data.playback_position.getD 0))) := by
  constructor
  · cases hv : data.video_id <;> cases ht : data.title <;>
      cases hc : data.channel <;> cases hd : data.duration <;>
      simp [QueueItem.from_dict, hv, ht, hc, hd]
  · intro v t c d hv ht hc hd
    unfold QueueItem.from_dict
    rw [hv, ht, hc, hd]

/-- Witness for C7 amended: a record with exactly the four required fields
parses, with both defaults applied. -/
theorem C7_from_dict_amended_witness :
    QueueItem.from_dict
      (QueueItemRecord.mk (some "w") (some "x") (some "y") (some 7) none none)
      42 = some (QueueItem.mk "w" "x" "y" 7 42 0) :=
  (C7_from_dict_amended
    (QueueItemRecord.mk (some "w") (some "x") (some "y") (some 7) none none)
    42).2 "w" "x" "y" 7 rfl rfl rfl rfl

/-! ### C8 -/

/-- Shuffled queue for the C8 counterexample: projection `[1,0]`. -/
def qC8 : PlayQueue :=
  { items := [itemA, itemB], current_index := 0, shuffle_mode := true,
    repeat_mode := "none", shuffle_order := [1, 0] }

/-- **C8 counterexample.** The claim says `jump_to(i)` returns the canonical
item at index `i` regardless of shuffle. On `qC8` (projection `[1,0]`),
`jump_to 0` returns `itemB` — the item at *projection slot* 0 — not the
canonical item `itemA` at index 0. -/
theorem C8_jump_to_counterexample :
    qC8.items[(0 : Int).toNat]? = some itemA ∧
    (qC8.jump_to 0).1 = some itemB ∧
    itemB ≠ itemA := by decide

/-- **C8 amended.** `jump_to(i)` with `0 ≤ i < len(items)` sets the cursor to
`i` and returns the item at *active-order* position `i`: the canonical item
at index `i` when shuffle is inactive, and `items[projection[i]]` when
shuffle is active. With `i` out of range it returns `none` and the cursor
is untouched. -/
theorem C8_jump_to_amended (q : PlayQueue) (i : Int) (hwf : shuffleOk q) :
    (¬ (0 ≤ i ∧ i < (q.items.length : Int)) → q.jump_to i = (none, q)) ∧
    ((0 ≤ i ∧ i < (q.items.length : Int)) →
      (q.jump_to i).2.current_index = i ∧
      (q.shuffle_mode = false → (q.jump_to i).1 = q.items[i.toNat]?) ∧
      (q.shuffle_mode = true →
        (q.jump_to i).1 =
          (q.shuffle_order[i.toNat]?).bind fun a => q.items[a]?)) := by
  constructor
  · intro h
    unfold PlayQueue.jump_to
    rw [if_neg h]
  · intro h
    unfold PlayQueue.jump_to
    rw [if_pos h]
    refine ⟨rfl, ?_, ?_⟩
    · intro hm
      show PlayQueue.current _ = _
      unfold PlayQueue.current
      dsimp only
      rw [if_pos h, if_neg (by rw [hm]; simp)]
    · intro hm
      have hperm := hwf hm
      have hlen : q.shuffle_order.length = q.items.length :=
        hperm.length_eq.trans (List.length_range _)
      have hone : q.shuffle_order ≠ [] := by
        intro h0
        rw [h0] at hlen
        simp at hlen
        omega
      show PlayQueue.current _ = _
      unfold PlayQueue.current
      dsimp only
      rw [if_pos h, if_pos ⟨hm, hone⟩]

/-- Un-shuffled queue for the C8 witness. -/
def qC8w : PlayQueue :=
  { items := [itemA, itemB], current_index := 0, shuffle_mode := false,
    repeat_mode := "none", shuffle_order := [] }

/-- Witness for C8 amended: `jump_to 1` on an un-shuffled queue returns the
canonical item at index 1. -/
theorem C8_jump_to_amended_witness :
    ((0 : Int) ≤ 1 ∧ (1 : Int) < (qC8w.items.length : Int)) ∧
    (qC8w.jump_to 1).1 = qC8w.items[(1 : Int).toNat]? := by
  refine ⟨⟨by decide, by decide⟩, ?_⟩
  exact ((C8_jump_to_amended qC8w 1 (by decide)).2 ⟨by decide, by decide⟩).2.1 rfl

/-! ### C10 -/

/-- `load_from_dicts` in closed form, given that every record parses. -/
theorem load_from_dicts_eq (q : PlayQueue) (records : List QueueItemRecord)
    (ci now : Int) (r : List Nat) (items : List QueueItem)
    (hitems : loadItems records now = some items) :
    q.load_from_dicts records ci now r =
      some (if q.shuffle_mode then
              (PlayQueue.mk items
                (if -1 ≤ ci ∧ ci < (items.length : Int) then ci else -1)
                q.shuffle_mode q.repeat_mode []).create_shuffle_order r
            else
              PlayQueue.mk items
                (if -1 ≤ ci ∧ ci < (items.length : Int) then ci else -1)
                q.shuffle_mode q.repeat_mode []) := by
  unfold PlayQueue.load_from_dicts PlayQueue.clear
  rw [hitems]

/-- The cursor after `_create_shuffle_order`: relocated to 0 exactly when it
was non-negative and its value occurs in the fresh order. -/
theorem create_shuffle_order_cursor (q : PlayQueue) (r : List Nat) :
    (q.create_shuffle_order r).current_index =
      if 0 ≤ q.current_index ∧ q.current_index.toNat ∈ r then 0
      else q.current_index := by
  by_cases h1 : 0 ≤ q.current_index
  · by_cases h2 : q.current_index.toNat ∈ r
    · simp [PlayQueue.create_shuffle_order, h1, h2]
    · simp [PlayQueue.create_shuffle_order, h1, h2]
  · simp [PlayQueue.create_shuffle_order, h1]

/-- Queue whose shuffle flag is set, about to be reloaded. -/
def qC10 : PlayQueue :=
  { items := [], current_index := -1, shuffle_mode := true,
    repeat_mode := "none", shuffle_order := [] }

/-- **C10 counterexample.** The claim says `load_from_dicts(items, 1)` with
`-1 ≤ 1 < 2` sets the restored cursor to 1. When the queue's shuffle flag
is set at load time, the projection rebuild relocates the cursor: loading
two records with cursor 1 into `qC10` (with `random.shuffle` producing
`[0,1]`) ends with cursor 0, not 1. -/
theorem C10_load_cursor_counterexample :
    ((-1 : Int) ≤ 1 ∧ (1 : Int) < (2 : Int)) ∧
    qC10.load_from_dicts [itemA.to_dict, itemB.to_dict] 1 0 [0, 1] =
      some (PlayQueue.mk [itemA, itemB] 0 true "none" [1, 0]) ∧
    (PlayQueue.mk [itemA, itemB] 0 true "none" [1, 0]).current_index ≠ 1 := by
  decide

/-- **C10 amended.** For every successful `load_from_dicts(records, ci)`:
line 317 first clamps the cursor to `ci` when `-1 ≤ ci < len(items)` and to
`-1` otherwise; when the queue's `shuffle_mode` is set, the subsequent
projection rebuild additionally relocates an in-range non-negative cursor
whose value occurs in the fresh order to 0. In every case the cursor-bounds
invariant (cursor is -1, or `0 ≤ cursor < len`) holds after the load,
regardless of the cursor value supplied by the snapshot. -/
theorem C10_load_cursor_amended (q : PlayQueue) (records : List QueueItemRecord)
    (ci now : Int) (r : List Nat) (q' : PlayQueue)
    (hload : q.load_from_dicts records ci now r = some q') :
    q'.current_index =
      (if -1 ≤ ci ∧ ci < (q'.items.length : Int) then
        (if q.shuffle_mode = true ∧ 0 ≤ ci ∧ ci.toNat ∈ r then 0 else ci)
       else -1) ∧
    cursorOk q' := by
  obtain ⟨items, hitems⟩ : ∃ items, loadItems records now = some items := by
    cases h : loadItems records now with
    | none =>
      unfold PlayQueue.load_from_dicts at hload
      rw [h] at hload
      exact absurd hload (by simp)
    | some its => exact ⟨its, rfl⟩
  rw [load_from_dicts_eq q records ci now r items hitems] at hload
  injection hload with hq'
  subst hq'
  by_cases hm : q.shuffle_mode = true
  · rw [if_pos hm, create_shuffle_order_items]
    constructor
    · rw [create_shuffle_order_cursor]
      dsimp only
      by_cases hcond : -1 ≤ ci ∧ ci < (items.length : Int)
      · rw [if_pos hcond, if_pos hcond]
        by_cases hrel : 0 ≤ ci ∧ ci.toNat ∈ r
        · rw [if_pos hrel, if_pos ⟨hm, hrel⟩]
        · rw [if_neg hrel, if_neg (by tauto)]
      · rw [if_neg hcond, if_neg hcond,
          if_neg (fun h => absurd h.1 (by omega))]
    · unfold cursorOk
      rw [create_shuffle_order_cursor, create_shuffle_order_items]
      dsimp only
      by_cases hcond : -1 ≤ ci ∧ ci < (items.length : Int)
      · rw [if_pos hcond]
        by_cases hrel : 0 ≤ ci ∧ ci.toNat ∈ r
        · rw [if_pos hrel]
          right
          constructor
          · omega
          · omega
        · rw [if_neg hrel]
          by_cases hz : ci = -1
          · exact Or.inl hz
          · right
            constructor <;> omega
      · rw [if_neg hcond]
        exact Or.inl rfl
  · rw [if_neg hm]
    dsimp only
    constructor
    · by_cases hcond : -1 ≤ ci ∧ ci < (items.length : Int)
      · rw [if_pos hcond, if_pos hcond, if_neg (by tauto)]
      · rw [if_neg hcond, if_neg hcond]
    · unfold cursorOk
      dsimp only
      by_cases hcond : -1 ≤ ci ∧ ci < (items.length : Int)
      · rw [if_pos hcond]
        by_cases hz : ci = -1
        · exact Or.inl hz
        · right
          constructor <;> omega
      · rw [if_neg hcond]
        exact Or.inl rfl

/-- Witness for C10 amended: reloading two records with an out-of-range
cursor (7) into a non-shuffling queue yields cursor -1, satisfying the
bounds invariant. -/
theorem C10_load_cursor_amended_witness :
    qC8w.load_from_dicts [itemA.to_dict, itemB.to_dict] 7 0 [] =
      some (PlayQueue.mk [itemA, itemB] (-1) false "none" []) ∧
    (PlayQueue.mk [itemA, itemB] (-1) false "none" []).current_index = -1 ∧
    cursorOk (PlayQueue.mk [itemA, itemB] (-1) false "none" []) := by
  have hload : qC8w.load_from_dicts [itemA.to_dict, itemB.to_dict] 7 0 [] =
      some (PlayQueue.mk [itemA, itemB] (-1) false "none" []) := by decide
  have h := C10_load_cursor_amended qC8w [itemA.to_dict, itemB.to_dict] 7 0 []
    (PlayQueue.mk [itemA, itemB] (-1) false "none" []) hload
  refine ⟨hload, ?_, h.2⟩
  rw [h.1]
  decide
